import Mathlib

/-!
Verification of the N-body simulation core (`src/Bevy_Code/src/bodies.rs`)

Shallow embedding of the simulation systems registered by `BodiesPlugin`:
`clear_accelerations`, `sphere_repulsion`, `gravity`, `integrate`, chained in
that order on the fixed-update schedule.  `f32` arithmetic is idealised as
exact real arithmetic; bodies are modelled as a list of records holding the
components (`Mass`, `Radius`, `Transform.translation` as `pos`, `LastPos`,
`Acceleration`) that the systems query.  A separate finiteness-tracking model
(`Option`-valued, `none` = NaN/±Inf) is used for the division-by-zero claim,
since exact real arithmetic in Mathlib silently defines `x / 0 = 0`.
-/

namespace Bodies

/-- A 3-component vector over ℝ, modelling glam `Vec3` (with `f32` idealised as ℝ). -/
@[ext]
structure Vec3 where
  x : ℝ
  y : ℝ
  z : ℝ

namespace Vec3

instance : Zero Vec3 := ⟨⟨0, 0, 0⟩⟩

instance : Add Vec3 := ⟨fun a b => ⟨a.x + b.x, a.y + b.y, a.z + b.z⟩⟩

instance : Neg Vec3 := ⟨fun a => ⟨-a.x, -a.y, -a.z⟩⟩

instance : Sub Vec3 := ⟨fun a b => ⟨a.x - b.x, a.y - b.y, a.z - b.z⟩⟩

instance : SMul ℝ Vec3 := ⟨fun c a => ⟨c * a.x, c * a.y, c * a.z⟩⟩

@[simp] theorem zero_x : (0 : Vec3).x = 0 := rfl
@[simp] theorem zero_y : (0 : Vec3).y = 0 := rfl
@[simp] theorem zero_z : (0 : Vec3).z = 0 := rfl
@[simp] theorem add_x (a b : Vec3) : (a + b).x = a.x + b.x := rfl
@[simp] theorem add_y (a b : Vec3) : (a + b).y = a.y + b.y := rfl
@[simp] theorem add_z (a b : Vec3) : (a + b).z = a.z + b.z := rfl
@[simp] theorem neg_x (a : Vec3) : (-a).x = -a.x := rfl
@[simp] theorem neg_y (a : Vec3) : (-a).y = -a.y := rfl
@[simp] theorem neg_z (a : Vec3) : (-a).z = -a.z := rfl
@[simp] theorem sub_x (a b : Vec3) : (a - b).x = a.x - b.x := rfl
@[simp] theorem sub_y (a b : Vec3) : (a - b).y = a.y - b.y := rfl
@[simp] theorem sub_z (a b : Vec3) : (a - b).z = a.z - b.z := rfl
@[simp] theorem smul_x (c : ℝ) (a : Vec3) : (c • a).x = c * a.x := rfl
@[simp] theorem smul_y (c : ℝ) (a : Vec3) : (c • a).y = c * a.y := rfl
@[simp] theorem smul_z (c : ℝ) (a : Vec3) : (c • a).z = c * a.z := rfl

instance : AddCommGroup Vec3 where
  add_assoc a b c := by ext <;> simp <;> ring
  zero_add a := by ext <;> simp
  add_zero a := by ext <;> simp
  add_comm a b := by ext <;> simp <;> ring
  neg_add_cancel a := by ext <;> simp
  sub_eq_add_neg a b := by ext <;> simp <;> ring
  nsmul n a := ⟨n * a.x, n * a.y, n * a.z⟩
  nsmul_zero a := by ext <;> simp
  nsmul_succ n a := by ext <;> simp <;> ring
  zsmul n a := ⟨n * a.x, n * a.y, n * a.z⟩
  zsmul_zero' a := by ext <;> simp
  zsmul_succ' n a := by ext <;> push_cast <;> simp <;> ring
  zsmul_neg' n a := by ext <;> push_cast <;> simp <;> ring

instance : Module ℝ Vec3 where
  one_smul a := by ext <;> simp
  mul_smul c d a := by ext <;> simp <;> ring
  smul_zero c := by ext <;> simp
  smul_add c a b := by ext <;> simp <;> ring
  add_smul c d a := by ext <;> simp <;> ring
  zero_smul a := by ext <;> simp

/-- glam `Vec3::length`: square root of the dot product with itself. -/
noncomputable def length (v : Vec3) : ℝ :=
  Real.sqrt (v.x ^ 2 + v.y ^ 2 + v.z ^ 2)

/-- glam `Vec3::normalize`: `self * self.length_recip()`.  In the exact-real
idealisation `1 / 0 = 0`, so `normalize 0 = 0`; the finiteness-tracking model
below records that the floating-point code instead produces NaN there. -/
noncomputable def normalize (v : Vec3) : Vec3 :=
  (1 / length v) • v

@[simp] theorem length_zero : length (0 : Vec3) = 0 := by
  simp [length]

theorem length_nonneg (v : Vec3) : 0 ≤ length v := Real.sqrt_nonneg _

/-- Evaluation helper: the length of a vector whose squared norm is a known square. -/
theorem length_eval (v : Vec3) (c : ℝ) (h0 : 0 ≤ c)
    (h : v.x ^ 2 + v.y ^ 2 + v.z ^ 2 = c ^ 2) : length v = c := by
  rw [length, h, Real.sqrt_sq h0]

theorem length_smul (c : ℝ) (v : Vec3) : length (c • v) = |c| * length v := by
  have h : (c • v).x ^ 2 + (c • v).y ^ 2 + (c • v).z ^ 2
      = c ^ 2 * (v.x ^ 2 + v.y ^ 2 + v.z ^ 2) := by simp; ring
  rw [length, h, Real.sqrt_mul (sq_nonneg c), Real.sqrt_sq_eq_abs, length]

theorem length_eq_zero_iff (v : Vec3) : length v = 0 ↔ v = 0 := by
  constructor
  · intro h
    have hs : v.x ^ 2 + v.y ^ 2 + v.z ^ 2 = 0 := by
      have hle : v.x ^ 2 + v.y ^ 2 + v.z ^ 2 ≤ 0 :=
        Real.sqrt_eq_zero'.mp (by simpa [length] using h)
      nlinarith [sq_nonneg v.x, sq_nonneg v.y, sq_nonneg v.z]
    have hx : v.x = 0 := by nlinarith [sq_nonneg v.y, sq_nonneg v.z]
    have hy : v.y = 0 := by nlinarith [sq_nonneg v.x, sq_nonneg v.z]
    have hz : v.z = 0 := by nlinarith [sq_nonneg v.x, sq_nonneg v.y]
    ext <;> simp [hx, hy, hz]
  · rintro rfl; exact length_zero

theorem length_normalize (v : Vec3) (h : 0 < length v) :
    length (normalize v) = 1 := by
  rw [normalize, length_smul, abs_of_pos (by positivity)]
  field_simp

end Vec3

/-- Source constant `GRAVITY: f32 = 3.`. -/
def GRAVITY : ℝ := 3

/-- Source constant `REPULSION: f32 = 25.`. -/
def REPULSION : ℝ := 25

/-- Source constant `NUM_BODIES: usize = 165`. -/
def NUM_BODIES : ℕ := 165

/-- Source constant `DAMPING: f32 = 0.005`. -/
def DAMPING : ℝ := 0.005

/-- Source constant `FORCE_CUTOFF: f32 = 15.0`. -/
def FORCE_CUTOFF : ℝ := 15.0

/-- Source constant `MIN_DISTANCE: f32 = 0.1`. -/
def MIN_DISTANCE : ℝ := 0.1

/-- One simulated body: the components attached to each entity spawned by
`generate_bodies` (`Mass`, `Radius`, `Transform.translation` = `pos`,
`LastPos` = `lastPos`, `Acceleration` = `acc`).  `GlobalTransform.translation()`
read by the force systems equals `Transform.translation` here, since the bodies
are top-level entities and transform propagation has run.

The `isAnchor` field is *Modelled from the spec:* no anchor/star entity exists
anywhere in `src/` (`generate_bodies` spawns only free bodies and no system
consults such a flag); the data model of the spec lists an optional `isAnchor: bool`
role from another variant of the design.  Every body spawned by the code under
`src/` has `isAnchor = false`, and the source systems below never read it. -/
structure Body where
  mass : ℝ
  radius : ℝ
  pos : Vec3
  lastPos : Vec3
  acc : Vec3
  isAnchor : Bool := false

/-- The per-body update of `clear_accelerations`: `acceleration.0 = Vec3::ZERO`. -/
def clearBody (b : Body) : Body :=
  { b with acc := 0 }

/-- System `clear_accelerations`:
set the acceleration accumulator of every body to `Vec3::ZERO`. -/
def clear_accelerations (bs : List Body) : List Body :=
  bs.map clearBody

/-- The body of the `while let` loop of `sphere_repulsion`, for one pair
yielded by `iter_combinations_mut`: skip the pair when the raw distance
exceeds `FORCE_CUTOFF`, otherwise accumulate the softened repulsion force
into both accelerations. -/
noncomputable def pairUpdate (b1 b2 : Body) : Body × Body :=
  let force_direction := b2.pos - b1.pos
  if FORCE_CUTOFF < force_direction.length then (b1, b2)
  else
    let r_sum := b1.radius + b2.radius
    let r_distance := force_direction.length / r_sum
    let force_magnitude_1 := REPULSION * b2.mass / r_distance ^ 2
    let force_magnitude_2 := REPULSION * b1.mass / r_distance ^ 2
    ({ b1 with acc := b1.acc - force_magnitude_1 • force_direction.normalize },
     { b2 with acc := b2.acc + force_magnitude_2 • force_direction.normalize })

/-- Pair the head body against every later body in order, threading the
mutated accumulators, as `iter_combinations_mut` yields `(0,1), (0,2), …`. -/
noncomputable def repulseOne (b : Body) : List Body → Body × List Body
  | [] => (b, [])
  | c :: cs =>
      let p := pairUpdate b c
      let r := repulseOne p.1 cs
      (r.1, p.2 :: r.2)

theorem repulseOne_snd_length (b : Body) (l : List Body) :
    ((repulseOne b l).2).length = l.length := by
  induction l generalizing b with
  | nil => rfl
  | cons c cs ih => simp [repulseOne, ih]

/-- System `sphere_repulsion`: visit every unordered pair of distinct bodies
once (the order of `iter_combinations_mut`), accumulating the repulsion force
of each non-skipped pair into the accelerations of both bodies. -/
noncomputable def sphere_repulsion : List Body → List Body
  | [] => []
  | b :: rest =>
      let r := repulseOne b rest
      r.1 :: sphere_repulsion r.2
termination_by bs => bs.length
decreasing_by
  simp [repulseOne_snd_length]

/-- The loop body of `gravity` for one body: skip when the distance from the
origin is below `MIN_DISTANCE`, otherwise add the central pull
`-normalize(pos) * (GRAVITY * mass + (|pos| / 10)²)`. -/
noncomputable def gravityBody (b : Body) : Body :=
  let distance_from_center := b.pos.length
  if distance_from_center < MIN_DISTANCE then b
  else
    let force_magnitude := GRAVITY * b.mass + (distance_from_center / 10) ^ 2
    let force_direction := -b.pos.normalize
    { b with acc := b.acc + force_magnitude • force_direction }

/-- System `gravity`: apply the central force to every body. -/
noncomputable def gravity (bs : List Body) : List Body :=
  bs.map gravityBody

/-- The loop body of `integrate` for one body: Verlet step
`new_pos = (2 - DAMPING) * pos - (1 - DAMPING) * last_pos + acc * dt²`,
then `last_pos ← pos` (the pre-overwrite value), then `pos ← new_pos`.
The acceleration accumulator is *not* touched. -/
noncomputable def integrateBody (dt : ℝ) (b : Body) : Body :=
  let dt_sq := dt * dt
  let current_pos := b.pos
  let new_pos := (2 - DAMPING) • current_pos - (1 - DAMPING) • b.lastPos
      + dt_sq • b.acc
  { b with lastPos := b.pos, pos := new_pos }

/-- System `integrate`: advance every body one Verlet step with the fixed
timestep `dt` (`time.delta_secs()` inside the fixed-update schedule). -/
noncomputable def integrate (dt : ℝ) (bs : List Body) : List Body :=
  bs.map (integrateBody dt)

/-- One fixed-update tick: the system chain registered by `BodiesPlugin`,
`(clear_accelerations, sphere_repulsion, gravity, integrate).chain()`. -/
noncomputable def tick (dt : ℝ) (bs : List Body) : List Body :=
  integrate dt (gravity (sphere_repulsion (clear_accelerations bs)))

/-- Modelled from the spec: the anchor override (§4.2) is absent from `src/`
(no system reads an anchor flag); the spec requires that after the force
passes, any body flagged as an anchor has its accumulated acceleration
forcibly reset to zero so it never moves.  The spec places the override after
the pairwise pass and has the central pass skip anchors; zeroing once after
both force passes leaves the anchor with the same (zero) acceleration at
integration time, which is what the override exists to guarantee. -/
def anchorOverride (bs : List Body) : List Body :=
  bs.map fun b => if b.isAnchor then { b with acc := 0 } else b

/-- Modelled from the spec: one tick of the variant with anchors — the source
chain with the anchor override of the spec inserted after force accumulation. -/
noncomputable def tickAnchored (dt : ℝ) (bs : List Body) : List Body :=
  integrate dt (anchorOverride (gravity (sphere_repulsion (clear_accelerations bs))))

/-- Iterated anchored ticks. -/
noncomputable def ticksAnchored (dt : ℝ) : ℕ → List Body → List Body
  | 0, bs => bs
  | n + 1, bs => tickAnchored dt (ticksAnchored dt n bs)

/-!
Finiteness-tracking model of the repulsion pair computation

Exact real arithmetic hides IEEE-754 degeneracies (`x / 0 = 0` in Mathlib),
so the division-by-zero behaviour of `sphere_repulsion` is modelled once more
with `Option`-valued arithmetic: `some x` is a finite value, `none` is a
non-finite one (NaN or ±Inf).  Finite operations are idealised as exact
(overflow to ±Inf of finite operands is out of scope); the two operations that
create non-finite values from finite ones in this code are division by zero
(`±Inf` for a nonzero numerator, NaN for `0/0`) and `normalize` of the zero
vector (glam computes `v * (1/|v|) = 0 * Inf = NaN`).
-/

/-- Real division, tracking non-finiteness: division by zero is non-finite. -/
noncomputable def fdiv : Option ℝ → Option ℝ → Option ℝ
  | some a, some b => if b = 0 then none else some (a / b)
  | _, _ => none

/-- Real multiplication of possibly non-finite values. -/
def fmul : Option ℝ → Option ℝ → Option ℝ
  | some a, some b => some (a * b)
  | _, _ => none

/-- Vector sum of possibly non-finite values. -/
def faddV : Option Vec3 → Option Vec3 → Option Vec3
  | some a, some b => some (a + b)
  | _, _ => none

/-- Vector difference of possibly non-finite values. -/
def fsubV : Option Vec3 → Option Vec3 → Option Vec3
  | some a, some b => some (a - b)
  | _, _ => none

/-- Scalar multiple of possibly non-finite values. -/
def fsmul : Option ℝ → Option Vec3 → Option Vec3
  | some c, some v => some (c • v)
  | _, _ => none

/-- glam `Vec3::normalize` under IEEE semantics: the zero vector normalizes to
NaN (`0 * (1/0) = 0 * Inf`); any other finite vector normalizes finitely. -/
noncomputable def fnormalize : Option Vec3 → Option Vec3
  | some v => if v.length = 0 then none else some v.normalize
  | none => none

/-- The non-skip branch of the loop body of `sphere_repulsion` in the
finiteness-tracking model, line for line: returns the two new acceleration
accumulators.  The skip test compares finite reals, so it needs no tracking;
all inputs (positions, radii, masses, incoming accumulators) are finite. -/
noncomputable def pairAccsF (b1 b2 : Body) : Option Vec3 × Option Vec3 :=
  let force_direction := b2.pos - b1.pos
  if FORCE_CUTOFF < force_direction.length then (some b1.acc, some b2.acc)
  else
    let r_sum := b1.radius + b2.radius
    let r_distance := fdiv (some force_direction.length) (some r_sum)
    let force_magnitude_1 :=
      fdiv (fmul (some REPULSION) (some b2.mass)) (fmul r_distance r_distance)
    let force_magnitude_2 :=
      fdiv (fmul (some REPULSION) (some b1.mass)) (fmul r_distance r_distance)
    (fsubV (some b1.acc) (fsmul force_magnitude_1 (fnormalize (some force_direction))),
     faddV (some b2.acc) (fsmul force_magnitude_2 (fnormalize (some force_direction))))

/-!
Frame lemmas: the force passes touch only the acceleration accumulator
-/

/-- Everything of a body except its acceleration accumulator. -/
def Body.core (b : Body) : ℝ × ℝ × Vec3 × Vec3 × Bool :=
  (b.mass, b.radius, b.pos, b.lastPos, b.isAnchor)

theorem pairUpdate_core (b1 b2 : Body) :
    (pairUpdate b1 b2).1.core = b1.core ∧ (pairUpdate b1 b2).2.core = b2.core := by
  simp only [pairUpdate]
  split <;> exact ⟨rfl, rfl⟩

theorem repulseOne_core (l : List Body) (b : Body) :
    ((repulseOne b l).1.core = b.core ∧
      (repulseOne b l).2.map Body.core = l.map Body.core) := by
  induction l generalizing b with
  | nil => exact ⟨rfl, rfl⟩
  | cons c cs ih =>
      refine ⟨?_, ?_⟩
      · rw [repulseOne]
        exact ((ih (pairUpdate b c).1).1).trans (pairUpdate_core b c).1
      · rw [repulseOne]
        simp only [List.map_cons]
        exact congrArg₂ _ (pairUpdate_core b c).2 (ih (pairUpdate b c).1).2

theorem sphere_repulsion_core (bs : List Body) :
    (sphere_repulsion bs).map Body.core = bs.map Body.core := by
  induction bs using sphere_repulsion.induct with
  | case1 => rw [sphere_repulsion]
  | case2 b rest r ih =>
      rw [sphere_repulsion]
      simp only [List.map_cons]
      exact congrArg₂ _ (repulseOne_core rest b).1 (ih.trans (repulseOne_core rest b).2)

theorem clearBody_core (b : Body) : (clearBody b).core = b.core := rfl

theorem clear_accelerations_core (bs : List Body) :
    (clear_accelerations bs).map Body.core = bs.map Body.core := by
  simp only [clear_accelerations, List.map_map]
  exact List.map_congr_left fun b _ => clearBody_core b

theorem gravityBody_core (b : Body) : (gravityBody b).core = b.core := by
  simp only [gravityBody]
  split <;> rfl

theorem gravity_core (bs : List Body) :
    (gravity bs).map Body.core = bs.map Body.core := by
  simp only [gravity, List.map_map]
  exact List.map_congr_left fun b _ => gravityBody_core b

theorem anchorOverride_core (bs : List Body) :
    (anchorOverride bs).map Body.core = bs.map Body.core := by
  simp only [anchorOverride, List.map_map]
  refine List.map_congr_left fun b _ => ?_
  by_cases hb : b.isAnchor <;> simp [Body.core, hb]

/-- The three force-accumulation stages in front of `integrate` in the source
chain, composed: they preserve everything but the accumulator. -/
theorem forces_core (bs : List Body) :
    (gravity (sphere_repulsion (clear_accelerations bs))).map Body.core
      = bs.map Body.core :=
  (gravity_core _).trans ((sphere_repulsion_core _).trans (clear_accelerations_core bs))

theorem map_of_core_eq {α : Type} (f : Body → α)
    (g : ℝ × ℝ × Vec3 × Vec3 × Bool → α) (hf : ∀ b, f b = g b.core)
    {l1 l2 : List Body} (h : l1.map Body.core = l2.map Body.core) :
    l1.map f = l2.map f := by
  have key : ∀ l : List Body, l.map f = (l.map Body.core).map g := by
    intro l
    rw [List.map_map]
    exact List.map_congr_left fun b _ => hf b
  rw [key, key, h]

theorem length_of_core_eq {l1 l2 : List Body}
    (h : l1.map Body.core = l2.map Body.core) : l1.length = l2.length := by
  have := congrArg List.length h
  simpa using this

theorem get_core_of_core_eq {l1 l2 : List Body}
    (h : l1.map Body.core = l2.map Body.core) (i : ℕ) (h1 : i < l1.length)
    (h2 : i < l2.length) :
    (l1.get ⟨i, h1⟩).core = (l2.get ⟨i, h2⟩).core := by
  have := congrArg (fun l => l.get? i) h
  simpa [List.getElem?_map, List.getElem?_eq_getElem, h1, h2] using this

theorem core_mass {b c : Body} (h : b.core = c.core) : b.mass = c.mass :=
  congrArg (fun t => t.1) h

theorem core_radius {b c : Body} (h : b.core = c.core) : b.radius = c.radius :=
  congrArg (fun t => t.2.1) h

theorem core_pos {b c : Body} (h : b.core = c.core) : b.pos = c.pos :=
  congrArg (fun t => t.2.2.1) h

theorem core_lastPos {b c : Body} (h : b.core = c.core) : b.lastPos = c.lastPos :=
  congrArg (fun t => t.2.2.2.1) h

theorem core_isAnchor {b c : Body} (h : b.core = c.core) : b.isAnchor = c.isAnchor :=
  congrArg (fun t => t.2.2.2.2) h

/-!
Small-system equations and concrete bodies used in witnesses
-/

theorem sphere_repulsion_singleton (a : Body) : sphere_repulsion [a] = [a] := by
  rw [sphere_repulsion, repulseOne, sphere_repulsion]

theorem sphere_repulsion_pair (a b : Body) :
    sphere_repulsion [a, b] = [(pairUpdate a b).1, (pairUpdate a b).2] := by
  rw [sphere_repulsion, repulseOne, repulseOne]
  rw [sphere_repulsion, repulseOne, sphere_repulsion]

/-- A unit body resting at `(1, 0, 0)` with zero accumulator. -/
def unitBody : Body :=
  { mass := 1, radius := 1, pos := ⟨1, 0, 0⟩, lastPos := ⟨1, 0, 0⟩, acc := 0 }

/-- A small body (radius `1/4`) at the origin. -/
def bodyA3 : Body :=
  { mass := 1, radius := 0.25, pos := ⟨0, 0, 0⟩, lastPos := ⟨0, 0, 0⟩, acc := 0 }

/-- A small body (radius `1/4`) at `(10, 0, 0)`. -/
def bodyB3 : Body :=
  { mass := 1, radius := 0.25, pos := ⟨10, 0, 0⟩, lastPos := ⟨10, 0, 0⟩, acc := 0 }

/-- A unit body at the origin. -/
def bodyA10 : Body :=
  { mass := 1, radius := 1, pos := ⟨0, 0, 0⟩, lastPos := ⟨0, 0, 0⟩, acc := 0 }

/-- A unit body at `(10, 0, 0)`. -/
def bodyB10 : Body :=
  { mass := 1, radius := 1, pos := ⟨10, 0, 0⟩, lastPos := ⟨10, 0, 0⟩, acc := 0 }

/-- Two coincident unit bodies at `(1, 2, 3)`. -/
def coincidentA : Body :=
  { mass := 1, radius := 1, pos := ⟨1, 2, 3⟩, lastPos := ⟨1, 2, 3⟩, acc := 0 }

/-- Second coincident unit body at the same point `(1, 2, 3)`. -/
def coincidentB : Body :=
  { mass := 1, radius := 1, pos := ⟨1, 2, 3⟩, lastPos := ⟨1, 2, 3⟩, acc := 0 }

/-- A body placed exactly at the origin. -/
def originBody : Body :=
  { mass := 1, radius := 1, pos := 0, lastPos := 0, acc := 0 }

/-- An anchor resting at the origin (the star of the spec, fixed in place). -/
def anchorBody : Body :=
  { mass := 1, radius := 1, pos := 0, lastPos := 0, acc := 0, isAnchor := true }

theorem gravityBody_eval (b : Body) (c : ℝ) (hc : b.pos.length = c)
    (h : ¬ c < MIN_DISTANCE) :
    gravityBody b
      = { b with acc := b.acc + (GRAVITY * b.mass + (c / 10) ^ 2) • -b.pos.normalize } := by
  simp only [gravityBody, hc]
  rw [if_neg h]

theorem unitBody_pos_length : unitBody.pos.length = 1 := by
  apply Vec3.length_eval _ 1 (by norm_num)
  simp [unitBody]

theorem unitBody_normalize : unitBody.pos.normalize = ⟨1, 0, 0⟩ := by
  rw [Vec3.normalize, unitBody_pos_length]
  ext <;> simp [unitBody]

theorem gravityBody_unitBody :
    gravityBody unitBody = { unitBody with acc := ⟨-(301 / 100), 0, 0⟩ } := by
  rw [gravityBody_eval unitBody 1 unitBody_pos_length (by norm_num [MIN_DISTANCE])]
  have h : (1:ℝ) / 10 ^ 2
      = 1 / 100 := by norm_num
  congr 1
  rw [unitBody_normalize]
  ext <;> norm_num [unitBody, GRAVITY]

theorem tick_unitBody :
    tick 1 [unitBody] = [integrateBody 1 (gravityBody unitBody)] := by
  have hclear : clear_accelerations [unitBody] = [unitBody] := rfl
  rw [tick, hclear, sphere_repulsion_singleton]
  rfl

/-!
The anchored tick fixes anchors in place
-/

theorem sphere_repulsion_length (bs : List Body) :
    (sphere_repulsion bs).length = bs.length :=
  length_of_core_eq (sphere_repulsion_core bs)

theorem forces_length (bs : List Body) :
    (gravity (sphere_repulsion (clear_accelerations bs))).length = bs.length :=
  length_of_core_eq (forces_core bs)

theorem tickAnchored_length (dt : ℝ) (bs : List Body) :
    (tickAnchored dt bs).length = bs.length := by
  simp only [tickAnchored, integrate, anchorOverride, List.length_map]
  exact forces_length bs

/-- The acceleration-zeroed anchor does not move in one Verlet step when it
is at rest (`lastPos = pos`). -/
theorem integrateBody_rest (dt : ℝ) (b : Body) (hacc : b.acc = 0)
    (hrest : b.lastPos = b.pos) :
    (integrateBody dt b).pos = b.pos ∧ (integrateBody dt b).lastPos = b.pos := by
  constructor
  · show (2 - DAMPING) • b.pos - (1 - DAMPING) • b.lastPos + (dt * dt) • b.acc = b.pos
    rw [hacc, hrest]
    ext <;> simp <;> ring
  · rfl

/-- One anchored tick leaves a resting anchor exactly in place, anchored and
at rest, whatever the other bodies are. -/
theorem tickAnchored_step (dt : ℝ) (bs : List Body) (i : ℕ) (h : i < bs.length)
    (ha : (bs.get ⟨i, h⟩).isAnchor = true)
    (hr : (bs.get ⟨i, h⟩).lastPos = (bs.get ⟨i, h⟩).pos) :
    ∃ h2 : i < (tickAnchored dt bs).length,
      ((tickAnchored dt bs).get ⟨i, h2⟩).pos = (bs.get ⟨i, h⟩).pos ∧
      ((tickAnchored dt bs).get ⟨i, h2⟩).lastPos = (bs.get ⟨i, h⟩).pos ∧
      ((tickAnchored dt bs).get ⟨i, h2⟩).isAnchor = true := by
  have hlen : (tickAnchored dt bs).length = bs.length := tickAnchored_length dt bs
  refine ⟨by rw [hlen]; exact h, ?_⟩
  have h3 : i < (gravity (sphere_repulsion (clear_accelerations bs))).length := by
    rw [forces_length]; exact h
  have hc : ((gravity (sphere_repulsion (clear_accelerations bs))).get ⟨i, h3⟩).core
      = (bs.get ⟨i, h⟩).core := get_core_of_core_eq (forces_core bs) i h3 h
  set b3 := (gravity (sphere_repulsion (clear_accelerations bs))).get ⟨i, h3⟩ with hb3
  have ha3 : b3.isAnchor = true := (core_isAnchor hc).trans ha
  have hover : i < (anchorOverride (gravity (sphere_repulsion (clear_accelerations bs)))).length := by
    simpa [anchorOverride] using h3
  have hget4 : (anchorOverride (gravity (sphere_repulsion (clear_accelerations bs)))).get ⟨i, hover⟩
      = { b3 with acc := 0 } := by
    simp only [anchorOverride, List.get_eq_getElem, List.getElem_map]
    rw [← List.get_eq_getElem _ ⟨i, h3⟩, ← hb3]
    simp [ha3]
  have hget5 : ∀ h5, (tickAnchored dt bs).get ⟨i, h5⟩
      = integrateBody dt { b3 with acc := 0 } := by
    intro h5
    simp only [tickAnchored, integrate, List.get_eq_getElem, List.getElem_map]
    rw [← List.get_eq_getElem _ ⟨i, hover⟩, hget4]
  rw [hget5]
  have hrest3 : ({ b3 with acc := 0 } : Body).lastPos = ({ b3 with acc := 0 } : Body).pos := by
    show b3.lastPos = b3.pos
    rw [core_lastPos hc, core_pos hc, hr]
  have := integrateBody_rest dt { b3 with acc := 0 } rfl hrest3
  refine ⟨?_, ?_, ?_⟩
  · rw [this.1]; exact core_pos hc
  · rw [this.2]; exact core_pos hc
  · exact ha3

/-!
Claims
-/

/-- C6: one integration step computes
`newPosition = (2 − damping) × position − (1 − damping) × previousPosition
+ acceleration × Δt²`, stores the pre-overwrite position into
`previousPosition`, and stores `newPosition` into `position`; the `integrate`
system applies this step to every body. -/
theorem c6_integrate_verlet_step (dt : ℝ) (bs : List Body) :
    integrate dt bs = bs.map (integrateBody dt) ∧
    ∀ b : Body,
      (integrateBody dt b).pos
        = (2 - DAMPING) • b.pos - (1 - DAMPING) • b.lastPos + (dt * dt) • b.acc ∧
      (integrateBody dt b).lastPos = b.pos :=
  ⟨rfl, fun _ => ⟨rfl, rfl⟩⟩

/-- C7: the central-force pass leaves the acceleration of a body unchanged when its
distance from the origin is below `MIN_DISTANCE`, and otherwise adds exactly
`(GRAVITY × mass + (|position| / 10)²) · (−normalize position)` to it. -/
theorem c7_gravity_central_force (bs : List Body) (b : Body) :
    gravity bs = bs.map gravityBody ∧
    (gravityBody b).acc
      = (if b.pos.length < MIN_DISTANCE then b.acc
        else b.acc + (GRAVITY * b.mass + (b.pos.length / 10) ^ 2) • -b.pos.normalize) := by
  refine ⟨rfl, ?_⟩
  simp only [gravityBody]
  split <;> rfl

/-- C8: a tick runs `clear_accelerations` first, and after it the
acceleration accumulator of every body is exactly `Vec3::ZERO`, whatever it held before;
only then do the two force passes and the integrator run. -/
theorem c8_accelerations_cleared_first (dt : ℝ) (bs : List Body) :
    tick dt bs = integrate dt (gravity (sphere_repulsion (clear_accelerations bs))) ∧
    ∀ b ∈ clear_accelerations bs, b.acc = 0 := by
  refine ⟨rfl, ?_⟩
  intro b hb
  simp only [clear_accelerations, List.mem_map] at hb
  obtain ⟨a, -, rfl⟩ := hb
  rfl

/-- Witness for C8 at a concrete one-body system. -/
theorem c8_accelerations_cleared_first_witness :
    tick 1 [unitBody]
      = integrate 1 (gravity (sphere_repulsion (clear_accelerations [unitBody]))) ∧
    (clearBody unitBody).acc = 0 :=
  ⟨(c8_accelerations_cleared_first 1 [unitBody]).1,
    (c8_accelerations_cleared_first 1 [unitBody]).2 (clearBody unitBody)
      (by simp [clear_accelerations])⟩

/-- C9: the two force-accumulation passes change only accelerations — every
the `position` and `previousPosition` (and mass and radius) of every body are unchanged
by `sphere_repulsion` and by `gravity`. -/
theorem c9_forces_fix_positions (bs : List Body) :
    (sphere_repulsion bs).map Body.pos = bs.map Body.pos ∧
    (sphere_repulsion bs).map Body.lastPos = bs.map Body.lastPos ∧
    (sphere_repulsion bs).map Body.mass = bs.map Body.mass ∧
    (sphere_repulsion bs).map Body.radius = bs.map Body.radius ∧
    (gravity bs).map Body.pos = bs.map Body.pos ∧
    (gravity bs).map Body.lastPos = bs.map Body.lastPos ∧
    (gravity bs).map Body.mass = bs.map Body.mass ∧
    (gravity bs).map Body.radius = bs.map Body.radius := by
  refine ⟨?_, ?_, ?_, ?_, ?_, ?_, ?_, ?_⟩
  · exact map_of_core_eq _ (fun t => t.2.2.1) (fun _ => rfl) (sphere_repulsion_core bs)
  · exact map_of_core_eq _ (fun t => t.2.2.2.1) (fun _ => rfl) (sphere_repulsion_core bs)
  · exact map_of_core_eq _ (fun t => t.1) (fun _ => rfl) (sphere_repulsion_core bs)
  · exact map_of_core_eq _ (fun t => t.2.1) (fun _ => rfl) (sphere_repulsion_core bs)
  · exact map_of_core_eq _ (fun t => t.2.2.1) (fun _ => rfl) (gravity_core bs)
  · exact map_of_core_eq _ (fun t => t.2.2.2.1) (fun _ => rfl) (gravity_core bs)
  · exact map_of_core_eq _ (fun t => t.1) (fun _ => rfl) (gravity_core bs)
  · exact map_of_core_eq _ (fun t => t.2.1) (fun _ => rfl) (gravity_core bs)

/-- C2 counterexample: after one full tick on a single body at distance 1 from
the origin, the accumulator of the body holds the central-force contribution
`(-301/100, 0, 0)` — not `Vec3::ZERO`.  The reset happens at the *start* of
the next tick, not at the end of the current one. -/
theorem c2_counterexample : ∃ b, b ∈ tick 1 [unitBody] ∧ b.acc ≠ 0 := by
  refine ⟨integrateBody 1 (gravityBody unitBody), ?_, ?_⟩
  · rw [tick_unitBody]; exact List.mem_singleton.mpr rfl
  · intro h0
    have hacc : (integrateBody 1 (gravityBody unitBody)).acc = ⟨-(301 / 100), 0, 0⟩ := by
      show (gravityBody unitBody).acc = _
      rw [gravityBody_unitBody]
    rw [hacc] at h0
    have := congrArg Vec3.x h0
    norm_num at this

/-- C2 (amended): the accumulator reset is the first stage of the *next* tick,
not the last stage of the current one — after a full tick followed by the next
tick runs `clear_accelerations`, the acceleration of every body is `Vec3::ZERO`
exactly. -/
theorem c2_reset_at_next_tick_start (dt : ℝ) (bs : List Body) :
    ∀ b ∈ clear_accelerations (tick dt bs), b.acc = 0 := by
  intro b hb
  simp only [clear_accelerations, List.mem_map] at hb
  obtain ⟨a, -, rfl⟩ := hb
  rfl

/-- Witness for the amended C2 at a concrete one-body system. -/
theorem c2_reset_at_next_tick_start_witness :
    (clearBody (integrateBody 1 (gravityBody unitBody))).acc = 0 :=
  c2_reset_at_next_tick_start 1 [unitBody]
    (clearBody (integrateBody 1 (gravityBody unitBody)))
    (by rw [tick_unitBody]; simp [clear_accelerations])

/-- C5: for an isolated two-body system, one repulsion pass is a single pair
update, and the mass-weighted acceleration contributions cancel exactly:
`m_A • Δacc_A = −(m_B • Δacc_B)`, in exact real arithmetic. -/
theorem c5_pair_contributions_cancel (a b : Body) :
    sphere_repulsion [a, b] = [(pairUpdate a b).1, (pairUpdate a b).2] ∧
    a.mass • ((pairUpdate a b).1.acc - a.acc)
      = -(b.mass • ((pairUpdate a b).2.acc - b.acc)) := by
  refine ⟨sphere_repulsion_pair a b, ?_⟩
  simp only [pairUpdate]
  split
  · simp
  · ext <;> simp <;> ring

/-- C10: with a zero accumulator, one integration step scales the implicit
displacement `position − previousPosition` by exactly `1 − DAMPING` (with
`DAMPING = 0.005`), so its length never increases. -/
theorem c10_damping_contracts_displacement (dt : ℝ) (b : Body) (h : b.acc = 0) :
    DAMPING = 0.005 ∧
    (integrateBody dt b).pos - (integrateBody dt b).lastPos
      = (1 - DAMPING) • (b.pos - b.lastPos) ∧
    ((integrateBody dt b).pos - (integrateBody dt b).lastPos).length
      ≤ (b.pos - b.lastPos).length := by
  have hd : (integrateBody dt b).pos - (integrateBody dt b).lastPos
      = (1 - DAMPING) • (b.pos - b.lastPos) := by
    show (2 - DAMPING) • b.pos - (1 - DAMPING) • b.lastPos + (dt * dt) • b.acc - b.pos
      = (1 - DAMPING) • (b.pos - b.lastPos)
    rw [h]
    ext <;> simp <;> ring
  refine ⟨rfl, hd, ?_⟩
  rw [hd, Vec3.length_smul]
  have h1 : |1 - DAMPING| = 1 - DAMPING := by rw [abs_of_pos]; norm_num [DAMPING]
  have h2 := Vec3.length_nonneg (b.pos - b.lastPos)
  rw [h1]
  nlinarith [h2, mul_nonneg (by norm_num [DAMPING] : (0:ℝ) ≤ DAMPING) h2]

/-- Witness for C10 at a concrete resting body. -/
theorem c10_damping_contracts_displacement_witness :
    DAMPING = 0.005 ∧
    (integrateBody 1 unitBody).pos - (integrateBody 1 unitBody).lastPos
      = (1 - DAMPING) • (unitBody.pos - unitBody.lastPos) ∧
    ((integrateBody 1 unitBody).pos - (integrateBody 1 unitBody).lastPos).length
      ≤ (unitBody.pos - unitBody.lastPos).length :=
  c10_damping_contracts_displacement 1 unitBody rfl

theorem lenB3 : (bodyB3.pos - bodyA3.pos).length = 10 := by
  apply Vec3.length_eval _ 10 (by norm_num)
  norm_num [bodyA3, bodyB3]

theorem lenB10 : (bodyB10.pos - bodyA10.pos).length = 10 := by
  apply Vec3.length_eval _ 10 (by norm_num)
  norm_num [bodyA10, bodyB10]

/-- C3 counterexample: two bodies of radius `1/4` at raw distance `10` have
radius-softened scaled distance `20 > FORCE_CUTOFF`, yet the pair is *not*
skipped — the cutoff in the code compares the raw distance (`10 ≤ 15`) and the pair
contributes a repulsion force. -/
theorem c3_counterexample :
    FORCE_CUTOFF < (bodyB3.pos - bodyA3.pos).length / (bodyA3.radius + bodyB3.radius) ∧
    pairUpdate bodyA3 bodyB3 ≠ (bodyA3, bodyB3) := by
  constructor
  · rw [lenB3]; norm_num [bodyA3, bodyB3, FORCE_CUTOFF]
  · intro h
    have hx : (pairUpdate bodyA3 bodyB3).1.acc.x = bodyA3.acc.x := by rw [h]
    have heval : (pairUpdate bodyA3 bodyB3).1.acc.x = -(1 / 16) := by
      simp only [pairUpdate]
      rw [if_neg (by rw [lenB3]; norm_num [FORCE_CUTOFF])]
      simp only [Vec3.normalize, lenB3]
      norm_num [bodyA3, bodyB3, REPULSION]
    rw [heval] at hx
    norm_num [bodyA3] at hx

/-- C3 (amended): in the repulsion pass a pair is skipped exactly when the
*raw* distance `|B.position − A.position|` exceeds `FORCE_CUTOFF`; the
combined-radius softening enters only the force magnitude, not the cutoff.
Otherwise (with positive mass, radii and separation) the pair contributes a
repulsion force, changing the accumulators. -/
theorem c3_skip_uses_raw_distance (a b : Body)
    (hm : 0 < b.mass) (hr : 0 < a.radius + b.radius)
    (hd : 0 < (b.pos - a.pos).length) :
    pairUpdate a b = (a, b) ↔ FORCE_CUTOFF < (b.pos - a.pos).length := by
  constructor
  · intro h
    by_contra hcut
    have hfm : 0 < REPULSION * b.mass
        / ((b.pos - a.pos).length / (a.radius + b.radius)) ^ 2 := by
      apply div_pos
      · have : (0:ℝ) < REPULSION := by norm_num [REPULSION]
        exact mul_pos this hm
      · exact pow_pos (div_pos hd hr) 2
    have hupd : (pairUpdate a b).1.acc
        = a.acc - (REPULSION * b.mass
            / ((b.pos - a.pos).length / (a.radius + b.radius)) ^ 2)
          • (b.pos - a.pos).normalize := by
      simp only [pairUpdate]
      rw [if_neg hcut]
    have hne : (REPULSION * b.mass
          / ((b.pos - a.pos).length / (a.radius + b.radius)) ^ 2)
        • (b.pos - a.pos).normalize ≠ 0 := by
      intro h0
      have hlen := congrArg Vec3.length h0
      rw [Vec3.length_smul, Vec3.length_normalize _ hd, Vec3.length_zero,
        mul_one, abs_of_pos hfm] at hlen
      exact (ne_of_gt hfm) hlen
    have hsame : (pairUpdate a b).1.acc = a.acc := by rw [h]
    rw [hupd] at hsame
    exact hne (sub_eq_self.mp hsame)
  · intro h
    simp only [pairUpdate]
    rw [if_pos h]

/-- Witness for the amended C3 at a concrete in-range pair. -/
theorem c3_skip_uses_raw_distance_witness :
    pairUpdate bodyA10 bodyB10 = (bodyA10, bodyB10)
      ↔ FORCE_CUTOFF < (bodyB10.pos - bodyA10.pos).length :=
  c3_skip_uses_raw_distance bodyA10 bodyB10 (by norm_num [bodyB10])
    (by norm_num [bodyA10, bodyB10]) (by rw [lenB10]; norm_num)

/-- C1: at the failing input — two bodies at identical coordinates — the
repulsion pass divides `REPULSION × mass` by a zero squared scaled distance
and normalizes the zero vector, so under IEEE semantics both accumulators
become non-finite (NaN/Inf); `sphere_repulsion` has no minimum-distance guard
even though `MIN_DISTANCE` is documented as existing for exactly that.  The
central-force half of the claim does hold: a body exactly at the origin is
skipped by the `MIN_DISTANCE` guard of `gravity` and is left unchanged. -/
theorem c1_coincident_bodies_nonfinite :
    (pairAccsF coincidentA coincidentB).1 = none ∧
    (pairAccsF coincidentA coincidentB).2 = none ∧
    gravityBody originBody = originBody := by
  have hd : coincidentB.pos - coincidentA.pos = 0 := by
    ext <;> simp [coincidentA, coincidentB]
  refine ⟨?_, ?_, ?_⟩
  · simp only [pairAccsF, hd, Vec3.length_zero]
    rw [if_neg (by norm_num [FORCE_CUTOFF])]
    norm_num [fdiv, fmul, fsubV, fsmul, fnormalize, coincidentA, coincidentB]
  · simp only [pairAccsF, hd, Vec3.length_zero]
    rw [if_neg (by norm_num [FORCE_CUTOFF])]
    norm_num [fdiv, fmul, faddV, fsmul, fnormalize, coincidentA, coincidentB]
  · simp only [gravityBody]
    rw [if_pos]
    rw [show originBody.pos = 0 from rfl, Vec3.length_zero]
    norm_num [MIN_DISTANCE]

/-- C4: a body flagged as anchor (spec-modelled: its accumulator is forcibly
zeroed every tick) that starts at rest keeps exactly its initial position,
for any configuration of other bodies and any number of ticks. -/
theorem c4_anchor_position_invariant (dt : ℝ) (n : ℕ) (bs : List Body) (i : ℕ)
    (h : i < bs.length) (ha : (bs.get ⟨i, h⟩).isAnchor = true)
    (hrest : (bs.get ⟨i, h⟩).lastPos = (bs.get ⟨i, h⟩).pos) :
    ∃ h2 : i < (ticksAnchored dt n bs).length,
      ((ticksAnchored dt n bs).get ⟨i, h2⟩).pos = (bs.get ⟨i, h⟩).pos := by
  suffices hstrong : ∃ h2 : i < (ticksAnchored dt n bs).length,
      ((ticksAnchored dt n bs).get ⟨i, h2⟩).pos = (bs.get ⟨i, h⟩).pos ∧
      ((ticksAnchored dt n bs).get ⟨i, h2⟩).lastPos = (bs.get ⟨i, h⟩).pos ∧
      ((ticksAnchored dt n bs).get ⟨i, h2⟩).isAnchor = true by
    obtain ⟨h2, hp, -, -⟩ := hstrong
    exact ⟨h2, hp⟩
  induction n with
  | zero => exact ⟨h, rfl, hrest, ha⟩
  | succ n ih =>
      obtain ⟨h2, hp, hl, hA⟩ := ih
      obtain ⟨h3, sp, sl, sA⟩ :=
        tickAnchored_step dt (ticksAnchored dt n bs) i h2 hA (hl.trans hp.symm)
      exact ⟨h3, sp.trans hp, sl.trans hp, sA⟩

/-- Witness for C4: an anchor at the origin stays at the origin over three
anchored ticks. -/
theorem c4_anchor_position_invariant_witness :
    ∃ h2 : 0 < (ticksAnchored 1 3 [anchorBody]).length,
      ((ticksAnchored 1 3 [anchorBody]).get ⟨0, h2⟩).pos = anchorBody.pos :=
  c4_anchor_position_invariant 1 3 [anchorBody] 0 (by norm_num) rfl rfl

end Bodies
